import Mathlib

/-!
Verification of the incremental augmentation engine of the berserk-tcg-tflite
repository (src/data_augmentation.py and src/data_preparation.py).

The Python code is shallowly embedded: the filesystem is a finite association
list from paths to byte strings, pixel buffers are opaque strings, the md5
digest and the image decoder are explicit function parameters, and every
Python function of interest becomes an executable Lean definition that follows
the source line by line.  Timestamps (created_at, last_update) carry no
information used by any checked property and are omitted from the embedded
records.
-/

namespace BerserkAug

/-! ### Python string primitives

The repository manipulates names with str.split, str.lower, str.endswith,
os.path.splitext, and pathlib's Path.stem / Path.suffix / Path.name.  These
are embedded below on the character list underlying a string. -/

/-- Python str.split with a single-character separator: splitting the empty
string yields one empty field, and separators at the ends yield empty fields. -/
def splitCharList (c : Char) : List Char → List (List Char)
  | [] => [[]]
  | x :: t =>
    let r := splitCharList c t
    if x = c then [] :: r
    else
      match r with
      | [] => [[x]]
      | h :: t2 => (x :: h) :: t2

/-- Python s.split(sep) for a one-character separator, on strings. -/
def splitChar (c : Char) (s : String) : List String :=
  (splitCharList c s.data).map String.mk

/-- Python sep.join for the underscore separator. -/
def joinU : List String → String
  | [] => ""
  | [x] => x
  | x :: xs => x ++ "_" ++ joinU xs

/-- Splits a character list at its last dot: the part strictly before the
last dot and the part from the last dot on; none when no dot occurs. -/
def splitLastDot : List Char → Option (List Char × List Char)
  | [] => none
  | c :: rest =>
    match splitLastDot rest with
    | some (a, b) => some (c :: a, b)
    | none => if c = '.' then some ([], c :: rest) else none

/-- pathlib Path(p).name: the final path component. -/
def pyName (p : String) : String :=
  (splitChar '/' p).getLastD p

/-- pathlib Path(p).stem: the final component without its last extension.
The extension starts at the last dot provided that dot is neither the first
nor the last character of the name. -/
def pyStem (p : String) : String :=
  let n := pyName p
  match splitLastDot n.data with
  | some (a, b) => if a.isEmpty || b.length ≤ 1 then n else String.mk a
  | none => n

/-- pathlib Path(p).suffix: the last extension of the final component
including its dot, or the empty string. -/
def pySuffix (p : String) : String :=
  let n := pyName p
  match splitLastDot n.data with
  | some (a, b) => if a.isEmpty || b.length ≤ 1 then "" else String.mk b
  | none => ""

/-- os.path.splitext(p)[0]: splits at the last dot unless every character
before it (in the basename) is itself a dot.  Used by data_preparation.py;
it differs from pathlib's stem only on degenerate names. -/
def pySplitextStem (p : String) : String :=
  match splitLastDot p.data with
  | some (a, _) => if a.any (fun c => c ≠ '.') then String.mk a else p
  | none => p

/-- ASCII lowering of one character, the fragment of str.lower the
repository's file names exercise. -/
def asciiLower (c : Char) : Char :=
  if 65 ≤ c.toNat ∧ c.toNat ≤ 90 then Char.ofNat (c.toNat + 32) else c

/-- Python s.lower() on ASCII names. -/
def strLower (s : String) : String :=
  String.mk (s.data.map asciiLower)

/-- Python s.endswith(suf). -/
def strEndsWith (s suf : String) : Bool :=
  suf.data.isSuffixOf s.data

/-- Substring test on character lists, used for Python's needle in haystack. -/
def containsSub (hay needle : List Char) : Bool :=
  match hay with
  | [] => needle.isEmpty
  | _ :: t => needle.isPrefixOf hay || containsSub t needle

/-- Python "_aug_" in s. -/
def strContainsAug (s : String) : Bool :=
  containsSub s.data "_aug_".data

/-! ### Identity parsing

AdvancedDataAugmentator.parse_card_info (filename fallback branch) from
src/data_augmentation.py lines 213-244, and BerserkCardDataset.parse_filename
from src/data_preparation.py lines 20-47. -/

/-- The identity record built by parse_card_info. -/
structure CardInfo where
  set_name : String
  card_number : String
  variant : String
  base_name : String
deriving DecidableEq, Repr

/-- The guard of the suffix-stripping branch shared by both parsers:
parts has at least 4 segments and parts[-2] is the literal string aug. -/
def aug_strip_cond (parts : List String) : Bool :=
  decide (4 ≤ parts.length) && (parts.getD (parts.length - 2) "" == "aug")

/-- The tail of parse_card_info after the optional strip: fewer than two
segments is unparseable; otherwise segment 0 is the set, segment 1 the card
number, segment 2 (when present) the variant, defaulting to normal. -/
def mk_card_info (parts : List String) : Option CardInfo :=
  if parts.length < 2 then none
  else
    some
      { set_name := parts.getD 0 ""
        card_number := parts.getD 1 ""
        variant := if 2 < parts.length then parts.getD 2 "" else "normal"
        base_name := joinU parts }

/-- parse_card_info's filename fallback: take the pathlib stem, split on the
underscore, strip the last two segments when the stripping guard holds, then
extract the identity. -/
def parse_card_info (filename : String) : Option CardInfo :=
  let parts := splitChar '_' (pyStem filename)
  let parts2 := if aug_strip_cond parts then parts.dropLast.dropLast else parts
  mk_card_info parts2

/-- The row record built by BerserkCardDataset.parse_filename. -/
structure PrepInfo where
  filename : String
  set_name : String
  card_number : String
  variant : String
  full_name : String
deriving DecidableEq, Repr

/-- parse_filename from data_preparation.py: like parse_card_info but the
stem comes from os.path.splitext, the two-segment minimum is checked before
stripping, and full_name keeps the unstripped stem. -/
def parse_filename (filename : String) : Option PrepInfo :=
  let name := pySplitextStem filename
  let parts := splitChar '_' name
  if parts.length < 2 then none
  else
    let parts2 := if aug_strip_cond parts then parts.dropLast.dropLast else parts
    some
      { filename := filename
        set_name := parts2.getD 0 ""
        card_number := parts2.getD 1 ""
        variant := if 2 < parts2.length then parts2.getD 2 "" else "normal"
        full_name := name }

/-! ### Source listing (BerserkCardDataset.load_dataset, lines 49-82)

A directory listing entry is a file name together with its optional
single-level subdirectory; load_dataset keeps the entries with an image
extension whose names parse, and records the subdirectory-relative path. -/

/-- One entry of the source directory listing. -/
structure SrcEntry where
  subdir : Option String
  filename : String
deriving DecidableEq, Repr

/-- filename.lower().endswith(('.webp', '.jpg', '.jpeg', '.png')). -/
def load_ext_ok (fn : String) : Bool :=
  [".webp", ".jpg", ".jpeg", ".png"].any (fun e => strEndsWith (strLower fn) e)

/-- One row of the loaded source dataframe. -/
structure DataRow where
  filename : String
  set_name : String
  card_number : String
  variant : String
  full_name : String
  filepath : String
deriving DecidableEq, Repr

/-- The filepath column: subdir/filename under the subfolder structure,
the bare filename in a flat directory. -/
def srcFilepath (e : SrcEntry) : String :=
  match e.subdir with
  | some d => d ++ "/" ++ e.filename
  | none => e.filename

/-- load_dataset: every listed file with an image extension and a parseable
name becomes one row; everything else is skipped. -/
def load_dataset (listing : List SrcEntry) : List DataRow :=
  listing.filterMap (fun e =>
    if load_ext_ok e.filename then
      (parse_filename e.filename).map (fun pi =>
        { filename := pi.filename
          set_name := pi.set_name
          card_number := pi.card_number
          variant := pi.variant
          full_name := pi.full_name
          filepath := srcFilepath e })
    else none)

/-! ### State Store (lines 180-211, 279-312)

The persisted state maps each source path to its last-seen md5 hash and the
map of completed augmentation keys.  Python dicts become association lists
whose update keeps the position of an existing key and appends a fresh one.
The augmentation value keeps only output_path; created_at is a timestamp.
The md5 digest is an explicit parameter: a fixed pure function of the file
bytes.  The source filesystem is an association list from path to bytes. -/

/-- One value of state['processed_files']. -/
structure FileEntry where
  hash : String
  augmentations : List (String × String)
deriving DecidableEq, Repr

/-- The State Store: state['processed_files']. -/
structure AugState where
  processed_files : List (String × FileEntry)
deriving DecidableEq, Repr

/-- Python dict assignment d[k] = v on an association list: overwrite in
place when the key exists, append otherwise. -/
def upsert {α : Type} (k : String) (v : α) : List (String × α) → List (String × α)
  | [] => [(k, v)]
  | (k2, v2) :: rest => if k2 = k then (k, v) :: rest else (k2, v2) :: upsert k v rest

/-- get_file_hash (lines 205-211): the md5 hex digest of the file bytes, or
the empty string when the file cannot be read. -/
def get_file_hash (md5 : String → String) (srcFs : List (String × String))
    (p : String) : String :=
  match srcFs.lookup p with
  | some c => md5 c
  | none => ""

/-- The augmentation key f-string aug_type_aug_idx. -/
def aug_key (t : String) (i : Nat) : String :=
  t ++ "_" ++ Nat.repr i

/-- is_file_processed (lines 279-295): unknown path is unprocessed; a stored
hash different from the current hash is stale; otherwise the slot is
processed exactly when its augmentation key is recorded. -/
def is_file_processed (md5 : String → String) (srcFs : List (String × String))
    (st : AugState) (p : String) (t : String) (i : Nat) : Bool :=
  match st.processed_files.lookup p with
  | none => false
  | some fe =>
    if fe.hash ≠ get_file_hash md5 srcFs p then false
    else (fe.augmentations.lookup (aug_key t i)).isSome

/-- mark_file_processed (lines 297-312): create the entry with the current
hash only when the path is new, then record the augmentation key.  An entry
that already exists keeps whatever hash it had. -/
def mark_file_processed (md5 : String → String) (srcFs : List (String × String))
    (st : AugState) (p : String) (t : String) (i : Nat) (out : String) : AugState :=
  let fe :=
    match st.processed_files.lookup p with
    | some fe => fe
    | none => { hash := get_file_hash md5 srcFs p, augmentations := [] }
  { processed_files :=
      upsert p { fe with augmentations := upsert (aug_key t i) out fe.augmentations }
        st.processed_files }

/-! ### Output Namespace Builder (get_augmented_structure_path, lines 246-262) -/

/-- Path(filename).suffix or '.webp'. -/
def pySuffixOrWebp (filename : String) : String :=
  let s := pySuffix filename
  if s = "" then ".webp" else s

/-- The output path relative to the augmented root:
set/variant/filename for an original copy and
set/variant/stem_aug_{idx+1}{ext} for a derived slot.  The transform kind
component of augPart is accepted (the Python signature takes aug_type) but
never used in the path. -/
def aug_rel_path (ci : CardInfo) (filename : String)
    (augPart : Option (String × Nat)) : String :=
  match augPart with
  | some (_, i) =>
    ci.set_name ++ "/" ++ ci.variant ++ "/"
      ++ (pyStem filename ++ "_aug_" ++ Nat.repr (i + 1) ++ pySuffixOrWebp filename)
  | none => ci.set_name ++ "/" ++ ci.variant ++ "/" ++ filename

/-- get_augmented_structure_path: the augmented root joined with the
relative output path. -/
def get_augmented_structure_path (augmentedDir : String) (ci : CardInfo)
    (filename : String) (augPart : Option (String × Nat)) : String :=
  augmentedDir ++ "/" ++ aug_rel_path ci filename augPart

/-! ### Transform Registry (setup_augmentations and apply_augmentation,
lines 101-141 and 264-277)

The catalog keys are fixed; the transform bodies are an external capability
given as a parameter from kind and pixel buffer to pixel buffer.  Pixel
buffers are opaque strings. -/

/-- The albumentations catalog keys. -/
def albumentations_catalog : List String :=
  ["rotate", "brightness_contrast", "hue_saturation", "noise", "blur",
   "elastic", "optical_distortion", "combined"]

/-- The basic fallback catalog keys. -/
def basic_catalog : List String :=
  ["rotate", "brightness", "contrast", "saturation", "combined"]

/-- apply_augmentation: a registered kind invokes the catalog's transform;
any other kind falls through to return the input image unchanged. -/
def apply_augmentation (applyT : String → String → String) (catalog : List String)
    (image : String) (t : String) : String :=
  if catalog.contains t then applyT t image else image

/-! ### Derivation Engine (create_augmented_dataset, lines 314-431) -/

/-- The run mode selector for derivation runs. -/
inductive Mode where
  | full
  | incremental
deriving DecidableEq, Repr

/-- The augmentation configuration fields the engine reads. -/
structure Config where
  num_augmentations : Nat
  augmentation_types : List String
deriving DecidableEq, Repr

/-- One registry row (the columns of augmented_dataset.csv). -/
structure AugRecord where
  filename : String
  filepath : String
  original_filename : String
  augmentation_type : String
  set_name : String
  card_number : String
  variant : String
  full_path : String
deriving DecidableEq, Repr

/-- The running accumulator of create_augmented_dataset: the in-memory
state, the set of files present under the augmented root, the collected
registry rows, and the produced/skipped counters. -/
structure RunAcc where
  state : AugState
  outPaths : List String
  records : List AugRecord
  produced : Nat
  skipped : Nat
deriving DecidableEq, Repr

/-- parse_card_info with row data: every dataframe row carries set_name,
card_number and variant, so the identity is taken verbatim from the row. -/
def row_card_info (r : DataRow) : CardInfo :=
  { set_name := r.set_name
    card_number := r.card_number
    variant := r.variant
    base_name := r.set_name ++ "_" ++ r.card_number ++ "_" ++ r.variant }

/-- Writing an image file: the path becomes present under the output root. -/
def write_path (outs : List String) (p : String) : List String :=
  if outs.contains p then outs else outs ++ [p]

/-- One registry row for an output at the given slot. -/
def mk_record (augmentedDir : String) (r : DataRow) (ci : CardInfo)
    (augType : String) (augPart : Option (String × Nat)) : AugRecord :=
  { filename := pyName (aug_rel_path ci r.filename augPart)
    filepath := aug_rel_path ci r.filename augPart
    original_filename := r.filename
    augmentation_type := augType
    set_name := ci.set_name
    card_number := ci.card_number
    variant := ci.variant
    full_path := get_augmented_structure_path augmentedDir ci r.filename augPart }

/-- The body of the per-slot loop (lines 379-413): slot i uses the catalog
kind at i mod len, is skipped in incremental mode when the state says it is
fresh, and is otherwise produced: the output is written, its row recorded,
and the slot marked in the state. -/
def aug_slot_step (md5 : String → String) (cfg : Config) (mode : Mode)
    (augmentedDir : String) (srcFs : List (String × String)) (r : DataRow)
    (origPath : String) (acc : RunAcc) (i : Nat) : RunAcc :=
  let t := cfg.augmentation_types.getD (i % cfg.augmentation_types.length) ""
  if mode = Mode.incremental ∧ is_file_processed md5 srcFs acc.state origPath t i = true then
    { acc with skipped := acc.skipped + 1 }
  else
    let outPath := get_augmented_structure_path augmentedDir (row_card_info r) r.filename (some (t, i))
    { state := mark_file_processed md5 srcFs acc.state origPath t i outPath
      outPaths := write_path acc.outPaths outPath
      records := acc.records ++ [mk_record augmentedDir r (row_card_info r) t (some (t, i))]
      produced := acc.produced + 1
      skipped := acc.skipped }

/-- The body of the per-row loop (lines 331-417): a missing or undecodable
source file is skipped with a warning; otherwise the original copy is
written (always in full mode, only when absent in incremental mode) and
every configured slot is evaluated. -/
def row_step (md5 : String → String) (decode : String → Option String)
    (cfg : Config) (mode : Mode) (cardsDir augmentedDir : String)
    (srcFs : List (String × String)) (acc : RunAcc) (r : DataRow) : RunAcc :=
  let origPath := cardsDir ++ "/" ++ r.filepath
  match srcFs.lookup origPath with
  | none => acc
  | some content =>
    match decode content with
    | none => acc
    | some _ =>
      let ci := row_card_info r
      let origOut := get_augmented_structure_path augmentedDir ci r.filename none
      let acc1 :=
        if acc.outPaths.contains origOut = false ∨ mode = Mode.full then
          { acc with
              outPaths := write_path acc.outPaths origOut
              records := acc.records ++ [mk_record augmentedDir r ci "original" none] }
        else acc
      (List.range cfg.num_augmentations).foldl
        (aug_slot_step md5 cfg mode augmentedDir srcFs r origPath) acc1

/-- create_augmented_dataset: load the source dataset, raise when it is
empty, otherwise process every row and return the final accumulator (whose
state field is what save_state then persists). -/
def create_augmented_dataset (md5 : String → String) (decode : String → Option String)
    (cfg : Config) (mode : Mode) (cardsDir augmentedDir : String)
    (listing : List SrcEntry) (srcFs : List (String × String))
    (st0 : AugState) (outs0 : List String) : Except String RunAcc :=
  let df := load_dataset listing
  if df.isEmpty then Except.error "no images found in cards dir"
  else
    Except.ok (df.foldl (row_step md5 decode cfg mode cardsDir augmentedDir srcFs)
      { state := st0, outPaths := outs0, records := [], produced := 0, skipped := 0 })

/-! ### Registry Merger (update_csv_dataset, lines 433-448) -/

/-- pandas drop_duplicates(subset=filepath, keep=last): a row survives
exactly when no later row carries the same filepath. -/
def dropDupKeepLast : List AugRecord → List AugRecord
  | [] => []
  | r :: rest =>
    if rest.any (fun r2 => r2.filepath == r.filepath) then dropDupKeepLast rest
    else r :: dropDupKeepLast rest

/-- update_csv_dataset when the registry file exists: concatenate the
existing rows with the new rows and drop duplicate filepaths keeping the
last occurrence. -/
def update_csv_dataset (existing newRows : List AugRecord) : List AugRecord :=
  dropDupKeepLast (existing ++ newRows)

/-- The derivation branch of main (lines 645-662) observed through its exit
code, whether the state store was persisted, and whether the registry was
rewritten: an empty dataset raises before save_state, the exception handler
exits with code 1, and the registry is only touched when the run returned
rows. -/
def main_run (md5 : String → String) (decode : String → Option String)
    (cfg : Config) (mode : Mode) (cardsDir augmentedDir : String)
    (listing : List SrcEntry) (srcFs : List (String × String))
    (st0 : AugState) (outs0 : List String) : Nat × Bool × Bool :=
  match create_augmented_dataset md5 decode cfg mode cardsDir augmentedDir listing srcFs st0 outs0 with
  | Except.error _ => (1, false, false)
  | Except.ok res => (0, true, !res.records.isEmpty)

/-! ### Reconciler (cleanup_orphaned_files, lines 466-512) -/

/-- aug_file.suffix.lower() in ['.webp', '.jpg', '.jpeg', '.png']. -/
def cleanup_ext_ok (fn : String) : Bool :=
  [".webp", ".jpg", ".jpeg", ".png"].contains (strLower (pySuffix fn))

/-- The base stem the cleanup pass recovers from a derived file: join the
stem's underscore segments without the last two, reattach the suffix, and
take the stem of the result. -/
def recovered_base_stem (augPath : String) : String :=
  let stem := pyStem augPath
  pyStem (joinU ((splitChar '_' stem).dropLast.dropLast) ++ pySuffix augPath)

/-- The deletion decision for one file under the augmented root: only image
files whose stem contains the marker participate, and such a file is deleted
exactly when no source filepath's stem equals the recovered base stem. -/
def cleanup_deletes (originals : List String) (augPath : String) : Bool :=
  if cleanup_ext_ok augPath then
    if strContainsAug (pyStem augPath) then
      !(originals.any (fun orig => pyStem orig == recovered_base_stem augPath))
    else false
  else false

/-- cleanup_orphaned_files: the source listing is loaded exactly as a
derivation run loads it, each row contributing its filepath to the valid
set, and the files deleted from the walk of the augmented root are
returned. -/
def cleanup_orphaned_files (listing : List SrcEntry) (augFiles : List String) :
    List String :=
  let originals := (load_dataset listing).map (fun r => r.filepath)
  augFiles.filter (cleanup_deletes originals)

/-! ### save_state as a filesystem trace (lines 197-203)

save_state opens the state file for writing (which truncates it) and streams
the JSON serialization into it.  The trace model records the operations the
function performs against the store; running a prefix of the trace gives the
on-disk content seen if the process is interrupted at that point. -/

/-- A filesystem operation relevant to persisting the state store. -/
inductive FsOp where
  | openTrunc (path : String)
  | write (path : String) (data : String)
  | rename (src : String) (dst : String)
deriving DecidableEq, Repr

/-- The state file name under the augmented root. -/
def state_file_name : String :=
  "augmentation_state.json"

/-- The operation trace of save_state: open-and-truncate the state file,
then write the serialized chunks in order.  No temporary file and no rename
appears. -/
def save_state_ops (chunks : List String) : List FsOp :=
  FsOp.openTrunc state_file_name :: chunks.map (fun c => FsOp.write state_file_name c)

/-- Recognizes a rename operation. -/
def is_rename : FsOp → Bool
  | FsOp.rename _ _ => true
  | _ => false

/-- The content of the state file after running a trace from a starting
content. -/
def run_fs_ops (start : String) (ops : List FsOp) : String :=
  ops.foldl (fun c op =>
    match op with
    | FsOp.openTrunc p => if p = state_file_name then "" else c
    | FsOp.write p s => if p = state_file_name then c ++ s else c
    | FsOp.rename _ _ => c) start

/-! ### Decimal rendering

The engine renders slot ordinals with f-strings, embedded as Nat.repr.
Injectivity of the decimal rendering is needed to show distinct slot
indices give distinct output file names. -/

/-- Big-endian decimal digits of a natural number (0 renders as "0"). -/
def natDigits (n : Nat) : List Char :=
  if n < 10 then [Nat.digitChar n]
  else natDigits (n / 10) ++ [Nat.digitChar (n % 10)]
  decreasing_by exact Nat.div_lt_self (by omega) (by omega)

lemma toDigitsCore_eq (f : Nat) : ∀ (n : Nat) (ds : List Char), n < f →
    Nat.toDigitsCore 10 f n ds = natDigits n ++ ds := by
  induction f with
  | zero => intro n ds h; omega
  | succ f ih =>
    intro n ds h
    simp only [Nat.toDigitsCore]
    by_cases h10 : n / 10 = 0
    · have hn : n < 10 := by
        by_contra hc
        have h1 : 1 ≤ n / 10 := (Nat.le_div_iff_mul_le (by omega)).mpr (by omega)
        omega
      rw [if_pos h10, natDigits, if_pos hn, Nat.mod_eq_of_lt hn]
      simp
    · have hge : 10 ≤ n := by
        by_contra hc
        exact h10 (Nat.div_eq_of_lt (by omega))
      have hlt : n / 10 < f := by
        have h2 : n / 10 < n := Nat.div_lt_self (by omega) (by omega)
        omega
      rw [if_neg h10, ih (n / 10) _ hlt]
      conv_rhs => rw [natDigits]
      rw [if_neg (by omega : ¬ n < 10)]
      simp

lemma natRepr_eq (n : Nat) : Nat.repr n = (natDigits n).asString := by
  show (Nat.toDigits 10 n).asString = (natDigits n).asString
  rw [Nat.toDigits, toDigitsCore_eq (n + 1) n [] (by omega)]
  simp

/-- The numeric value a decimal digit character stands for. -/
def digitVal (c : Char) : Nat := c.toNat - 48

/-- Reads a decimal digit string back into the natural number it renders. -/
def decodeDigits (l : List Char) : Nat :=
  l.foldl (fun a c => a * 10 + digitVal c) 0

lemma digitVal_digitChar (m : Nat) (h : m < 10) : digitVal (Nat.digitChar m) = m := by
  interval_cases m <;> decide

lemma decodeDigits_concat (l : List Char) (c : Char) :
    decodeDigits (l ++ [c]) = decodeDigits l * 10 + digitVal c := by
  simp [decodeDigits, List.foldl_append]

lemma decode_natDigits (n : Nat) : decodeDigits (natDigits n) = n := by
  induction n using Nat.strong_induction_on with
  | _ n ih =>
    rw [natDigits]
    by_cases h : n < 10
    · rw [if_pos h]
      simp [decodeDigits, digitVal_digitChar n h]
    · rw [if_neg h, decodeDigits_concat,
        ih (n / 10) (Nat.div_lt_self (by omega) (by omega)),
        digitVal_digitChar (n % 10) (Nat.mod_lt _ (by omega))]
      omega

lemma natRepr_data_inj {m n : Nat} (h : (Nat.repr m).data = (Nat.repr n).data) :
    m = n := by
  rw [natRepr_eq, natRepr_eq] at h
  have h2 : natDigits m = natDigits n := h
  calc m = decodeDigits (natDigits m) := (decode_natDigits m).symm
    _ = decodeDigits (natDigits n) := by rw [h2]
    _ = n := decode_natDigits n

/-! ### Shared concrete stand-ins for the external collaborators -/

/-- A concrete stand-in digest function for evaluations: a fixed pure
function of the file bytes, injective on the contents used below. -/
def sampleMd5 : String → String := fun c => "h:" ++ c

/-- A concrete stand-in image decoder that accepts every byte string. -/
def sampleDecode : String → Option String := fun c => some c

/-! ## Claims -/

/-! ### C1 — mark_file_processed and the stored fingerprint -/

/-- A source file whose current bytes hash to h:V2. -/
def c1_srcFs : List (String × String) := [("./cards/s1_001.webp", "V2")]

/-- A pre-existing state entry for that source holding the older hash h:V1. -/
def c1_state : AugState := ⟨[("./cards/s1_001.webp", ⟨"h:V1", []⟩)]⟩

/-- The state after marking one derivation slot of that source. -/
def c1_marked : AugState :=
  mark_file_processed sampleMd5 c1_srcFs c1_state "./cards/s1_001.webp" "rotate" 0
    "./cards_augmented/s1/normal/s1_001_aug_1.webp"

/-- C1: the claim says that after mark_file_processed the entry's stored
hash equals the current file hash even when an entry with an older hash
already existed.  Evaluating the code at such an input: the current hash is
h:V2, the augmentation key is added, yet the stored hash is still the stale
h:V1 because mark_file_processed only sets the hash when it creates the
entry.  The code contradicts the replace-fingerprint step the specification
states and the idempotence its own module docstring promises. -/
theorem C1_mark_keeps_stale_hash :
    get_file_hash sampleMd5 c1_srcFs "./cards/s1_001.webp" = "h:V2"
  ∧ (c1_marked.processed_files.lookup "./cards/s1_001.webp").map FileEntry.hash
      = some "h:V1"
  ∧ (c1_marked.processed_files.lookup "./cards/s1_001.webp").map
        (fun fe => fe.augmentations.lookup (aug_key "rotate" 0))
      = some (some "./cards_augmented/s1/normal/s1_001_aug_1.webp")
  ∧ ("h:V1" : String) ≠ "h:V2" := by decide

/-! ### C2 — incremental idempotence across two runs -/

/-- One-source listing for the idempotence scenario. -/
def c2_listing : List SrcEntry := [⟨none, "s1_001.webp"⟩]

/-- The source bytes, unchanged across both runs. -/
def c2_srcFs : List (String × String) := [("./cards/s1_001.webp", "V2")]

/-- The engine configuration: two slots over a two-kind catalog. -/
def c2_cfg : Config := ⟨2, ["rotate", "blur"]⟩

/-- The initial state: the source was processed by an earlier run and then
edited, so its entry holds the stale hash h:V1 with both slot keys. -/
def c2_state0 : AugState :=
  ⟨[("./cards/s1_001.webp", ⟨"h:V1", [("rotate_0", "x"), ("blur_1", "y")]⟩)]⟩

/-- The output tree already holds the original copy and both derivations. -/
def c2_outs0 : List String :=
  ["./cards_augmented/s1/normal/s1_001.webp",
   "./cards_augmented/s1/normal/s1_001_aug_1.webp",
   "./cards_augmented/s1/normal/s1_001_aug_2.webp"]

/-- Extracts the accumulator of a run that did not raise. -/
def accOf (r : Except String RunAcc) : RunAcc :=
  match r with
  | Except.ok a => a
  | Except.error _ => ⟨⟨[]⟩, [], [], 0, 0⟩

/-- The first incremental run of the pair. -/
def c2_run1 : Except String RunAcc :=
  create_augmented_dataset sampleMd5 sampleDecode c2_cfg Mode.incremental
    "./cards" "./cards_augmented" c2_listing c2_srcFs c2_state0 c2_outs0

/-- The second incremental run, from the state and output tree the first run
left, with the sources untouched in between. -/
def c2_run2 : Except String RunAcc :=
  create_augmented_dataset sampleMd5 sampleDecode c2_cfg Mode.incremental
    "./cards" "./cards_augmented" c2_listing c2_srcFs
    (accOf c2_run1).state (accOf c2_run1).outPaths

/-- C2: the claim says a second incremental run with no source changes has
zero Produced slots.  Evaluating the code: the first run re-derives both
slots of the edited source but (through mark_file_processed) leaves the
stale fingerprint h:V1 in place, so the second run, with no source changes
at all, re-derives both slots again — 2 Produced, 0 Skipped — contradicting
the idempotence property the specification states and the module docstring
promises. -/
theorem C2_second_run_reproduces :
    ((accOf c2_run1).produced = 2 ∧ (accOf c2_run1).skipped = 0)
  ∧ ((accOf c2_run2).produced = 2 ∧ (accOf c2_run2).skipped = 0)
  ∧ ((accOf c2_run1).state.processed_files.lookup "./cards/s1_001.webp").map
        FileEntry.hash = some "h:V1"
  ∧ get_file_hash sampleMd5 c2_srcFs "./cards/s1_001.webp" = "h:V2" := by decide

/-! ### C4 — output path as a function of the artifact tuple -/

/-- C4 counterexample: the claim says two different transformKinds at the
same index never collide, but the computed output path does not mention the
transform kind at all: rotate and blur at slot 0 of the same source map to
the same path. -/
theorem C4_counterexample :
    ("rotate" : String) ≠ "blur"
  ∧ get_augmented_structure_path "./cards_augmented" ⟨"s1", "001", "pf", "s1_001_pf"⟩
      "s1_001_pf.webp" (some ("rotate", 0))
    = get_augmented_structure_path "./cards_augmented" ⟨"s1", "001", "pf", "s1_001_pf"⟩
      "s1_001_pf.webp" (some ("blur", 0)) := by decide

/-- C4 amended: the output path is a pure function of set name, variant,
original filename and transform index alone — the transform kind and the
card number never influence it — while distinct transform indices for the
same identity and filename always yield distinct paths. -/
theorem C4_output_path_amended (dir : String) (ci ci2 : CardInfo)
    (fn t1 t2 : String) (i j : Nat) :
    get_augmented_structure_path dir ci fn (some (t1, i))
      = get_augmented_structure_path dir ci fn (some (t2, i))
  ∧ (ci.set_name = ci2.set_name → ci.variant = ci2.variant →
      get_augmented_structure_path dir ci fn (some (t1, i))
        = get_augmented_structure_path dir ci2 fn (some (t1, i)))
  ∧ (i ≠ j →
      get_augmented_structure_path dir ci fn (some (t1, i))
        ≠ get_augmented_structure_path dir ci fn (some (t2, j))) := by
  refine ⟨rfl, ?_, ?_⟩
  · intro hs hv
    simp only [get_augmented_structure_path, aug_rel_path, hs, hv]
  · intro hij h
    apply hij
    have hd := congrArg String.data h
    simp only [get_augmented_structure_path, aug_rel_path, String.data_append,
      List.append_assoc] at hd
    iterate 8 replace hd := List.append_cancel_left hd
    replace hd := List.append_cancel_right hd
    have := natRepr_data_inj hd
    omega

/-- Witness for C4_output_path_amended at a concrete tuple. -/
theorem C4_output_path_amended_witness :
    get_augmented_structure_path "./cards_augmented" ⟨"s1", "001", "pf", "s1_001_pf"⟩
      "s1_001_pf.webp" (some ("rotate", 0))
    = get_augmented_structure_path "./cards_augmented" ⟨"s1", "007", "pf", "z"⟩
      "s1_001_pf.webp" (some ("rotate", 0))
  ∧ get_augmented_structure_path "./cards_augmented" ⟨"s1", "001", "pf", "s1_001_pf"⟩
      "s1_001_pf.webp" (some ("rotate", 0))
    ≠ get_augmented_structure_path "./cards_augmented" ⟨"s1", "001", "pf", "s1_001_pf"⟩
      "s1_001_pf.webp" (some ("blur", 1)) :=
  ⟨(C4_output_path_amended "./cards_augmented" ⟨"s1", "001", "pf", "s1_001_pf"⟩
      ⟨"s1", "007", "pf", "z"⟩ "s1_001_pf.webp" "rotate" "rotate" 0 0).2.1 rfl rfl,
   (C4_output_path_amended "./cards_augmented" ⟨"s1", "001", "pf", "s1_001_pf"⟩
      ⟨"s1", "001", "pf", "s1_001_pf"⟩ "s1_001_pf.webp" "rotate" "blur" 0 1).2.2
     (by decide)⟩

/-! ### C5 — unregistered transform kinds -/

/-- C5 counterexample: the claim says no unregistered kind makes
apply_augmentation return a buffer as if it succeeded; but for the kind
sepia, which is not in the catalog, the function returns the input buffer —
the marker-producing transform capability is never invoked and no error is
raised. -/
theorem C5_counterexample :
    albumentations_catalog.contains "sepia" = false
  ∧ apply_augmentation (fun t img => "applied:" ++ t ++ ":" ++ img)
      albumentations_catalog "pixels" "sepia" = "pixels" := by decide

/-- C5 amended: requesting an unregistered transform kind is not an error —
apply_augmentation silently returns its input image unchanged for every
kind outside the catalog, and invokes the catalog transform for registered
kinds. -/
theorem C5_unregistered_is_identity (applyT : String → String → String)
    (catalog : List String) (img t : String) :
    (catalog.contains t = false → apply_augmentation applyT catalog img t = img)
  ∧ (catalog.contains t = true → apply_augmentation applyT catalog img t = applyT t img) := by
  constructor <;> intro h <;> simp only [apply_augmentation] <;> rw [h] <;> simp

/-- Witness for C5_unregistered_is_identity on the real catalog. -/
theorem C5_unregistered_is_identity_witness :
    apply_augmentation (fun t img => "applied:" ++ t ++ ":" ++ img)
      albumentations_catalog "pixels" "sepia" = "pixels"
  ∧ apply_augmentation (fun t img => "applied:" ++ t ++ ":" ++ img)
      albumentations_catalog "pixels" "rotate" = "applied:rotate:pixels" :=
  ⟨(C5_unregistered_is_identity (fun t img => "applied:" ++ t ++ ":" ++ img)
      albumentations_catalog "pixels" "sepia").1 (by decide),
   ((C5_unregistered_is_identity (fun t img => "applied:" ++ t ++ ":" ++ img)
      albumentations_catalog "pixels" "rotate").2 (by decide)).trans (by decide)⟩

/-! ### C7 — persistence of the state store -/

/-- C7 counterexample: the claim says save_state writes to a temporary file
and renames it over the state file.  The trace of save_state contains no
rename at all, truncates the state file in place, and interrupting it after
the first chunk leaves content that is neither the previous state nor the
new one. -/
theorem C7_counterexample :
    (save_state_ops ["chunkA", "chunkB"]).all (fun op => !is_rename op) = true
  ∧ FsOp.openTrunc state_file_name ∈ save_state_ops ["chunkA", "chunkB"]
  ∧ run_fs_ops "oldstate" ((save_state_ops ["chunkA", "chunkB"]).take 2) = "chunkA"
  ∧ ("chunkA" : String) ≠ "oldstate"
  ∧ ("chunkA" : String) ≠ "chunkAchunkB"
  ∧ run_fs_ops "oldstate" (save_state_ops ["chunkA", "chunkB"]) = "chunkAchunkB" := by
  decide

/-- C7 amended: save_state serializes directly into the state file in place
— its trace has no rename — and an interrupt right after the truncating
open leaves the state file empty, which differs from any nonempty previous
state. -/
theorem C7_save_not_atomic (old : String) (chunks : List String) :
    (save_state_ops chunks).all (fun op => !is_rename op) = true
  ∧ run_fs_ops old ((save_state_ops chunks).take 1) = ""
  ∧ (old ≠ "" → run_fs_ops old ((save_state_ops chunks).take 1) ≠ old) := by
  have htrunc : run_fs_ops old ((save_state_ops chunks).take 1) = "" := by
    simp [save_state_ops, run_fs_ops]
  refine ⟨?_, htrunc, ?_⟩
  · simp only [save_state_ops, List.all_cons, List.all_map, Bool.and_eq_true]
    constructor
    · decide
    · simp [is_rename]
  · intro h
    rw [htrunc]
    exact fun hc => h hc.symm

/-- Witness for C7_save_not_atomic at a concrete previous state. -/
theorem C7_save_not_atomic_witness :
    run_fs_ops "oldstate" ((save_state_ops ["x"]).take 1) ≠ "oldstate" :=
  (C7_save_not_atomic "oldstate" ["x"]).2.2 (by decide)

/-! ### C8 — fingerprinting an unreadable file -/

/-- C8 counterexample: the claim says fingerprinting an unreadable file
fails rather than returning a hash value and that callers then force
recomputation.  The code returns the empty-string sentinel, and a state
entry whose stored hash is that same sentinel makes is_file_processed
report the slot as fresh — recomputation is not forced. -/
theorem C8_counterexample :
    get_file_hash sampleMd5 [] "./cards/s1_001.webp" = ""
  ∧ is_file_processed sampleMd5 []
      ⟨[("./cards/s1_001.webp", ⟨"", [("rotate_0", "out")]⟩)]⟩
      "./cards/s1_001.webp" "rotate" 0 = true := by decide

/-- C8 amended: get_file_hash catches the read error and returns the empty
string; is_file_processed then reports a recorded slot as stale (forcing
recomputation) whenever the stored fingerprint is nonempty, the sentinel
case excepted. -/
theorem C8_error_sentinel (md5 : String → String) (srcFs : List (String × String))
    (st : AugState) (p t : String) (i : Nat) (fe : FileEntry) :
    srcFs.lookup p = none →
    (get_file_hash md5 srcFs p = ""
     ∧ (st.processed_files.lookup p = some fe → fe.hash ≠ "" →
         is_file_processed md5 srcFs st p t i = false)) := by
  intro hread
  have hhash : get_file_hash md5 srcFs p = "" := by
    simp [get_file_hash, hread]
  refine ⟨hhash, ?_⟩
  intro hlook hne
  simp [is_file_processed, hlook, hhash, hne]

/-- Witness for C8_error_sentinel at a concrete unreadable path. -/
theorem C8_error_sentinel_witness :
    get_file_hash sampleMd5 [] "./cards/s1_001.webp" = ""
  ∧ is_file_processed sampleMd5 []
      ⟨[("./cards/s1_001.webp", ⟨"h:V1", [("rotate_0", "out")]⟩)]⟩
      "./cards/s1_001.webp" "rotate" 0 = false := by
  have h := C8_error_sentinel sampleMd5 [] ⟨[("./cards/s1_001.webp",
    ⟨"h:V1", [("rotate_0", "out")]⟩)]⟩ "./cards/s1_001.webp" "rotate" 0
    ⟨"h:V1", [("rotate_0", "out")]⟩ (by decide)
  exact ⟨h.1, h.2 (by decide) (by decide)⟩

/-! ### C3 — registry merge, keyed by output path, last-write-wins -/

lemma mem_of_mem_dropDupKeepLast {l : List AugRecord} {r : AugRecord}
    (h : r ∈ dropDupKeepLast l) : r ∈ l := by
  induction l with
  | nil => exact h
  | cons a t ih =>
    rw [dropDupKeepLast] at h
    by_cases hc : t.any (fun r2 => r2.filepath == a.filepath)
    · rw [if_pos hc] at h
      exact List.mem_cons_of_mem a (ih h)
    · rw [if_neg hc] at h
      rcases List.mem_cons.mp h with h1 | h2
      · exact h1 ▸ List.mem_cons_self a t
      · exact List.mem_cons_of_mem a (ih h2)

lemma nodup_keys_dropDupKeepLast (l : List AugRecord) :
    ((dropDupKeepLast l).map AugRecord.filepath).Nodup := by
  induction l with
  | nil => simp [dropDupKeepLast]
  | cons a t ih =>
    rw [dropDupKeepLast]
    by_cases hc : t.any (fun r2 => r2.filepath == a.filepath)
    · rw [if_pos hc]; exact ih
    · rw [if_neg hc]
      simp only [List.map_cons, List.nodup_cons]
      refine ⟨?_, ih⟩
      intro hmem
      rcases List.mem_map.mp hmem with ⟨r2, hr2, hkey⟩
      have hr2t := mem_of_mem_dropDupKeepLast hr2
      exact hc (List.any_eq_true.mpr ⟨r2, hr2t, by simp [hkey]⟩)

lemma mem_right_of_key_in_right {l1 l2 : List AugRecord} {r : AugRecord}
    (h : r ∈ dropDupKeepLast (l1 ++ l2))
    (hk : l2.any (fun r2 => r2.filepath == r.filepath) = true) : r ∈ l2 := by
  induction l1 with
  | nil => exact mem_of_mem_dropDupKeepLast h
  | cons a t ih =>
    rw [List.cons_append, dropDupKeepLast] at h
    by_cases hc : (t ++ l2).any (fun r2 => r2.filepath == a.filepath)
    · rw [if_pos hc] at h
      exact ih h
    · rw [if_neg hc] at h
      rcases List.mem_cons.mp h with h1 | h2
      · subst h1
        exfalso
        apply hc
        rcases List.any_eq_true.mp hk with ⟨r2, hr2, hkey⟩
        exact List.any_eq_true.mpr ⟨r2, List.mem_append_right t hr2, hkey⟩
      · exact ih h2

lemma dropDup_append_absorb {l1 l2 : List AugRecord}
    (h : ∀ r ∈ l1, l2.any (fun r2 => r2.filepath == r.filepath) = true) :
    dropDupKeepLast (l1 ++ l2) = dropDupKeepLast l2 := by
  induction l1 with
  | nil => simp
  | cons a t ih =>
    rw [List.cons_append, dropDupKeepLast]
    have hc : (t ++ l2).any (fun r2 => r2.filepath == a.filepath) = true := by
      rcases List.any_eq_true.mp (h a (List.mem_cons_self a t)) with ⟨r2, hr2, hkey⟩
      exact List.any_eq_true.mpr ⟨r2, List.mem_append_right t hr2, hkey⟩
    rw [if_pos hc]
    exact ih (fun r hr => h r (List.mem_cons_of_mem a hr))

lemma dropDup_of_nodup_keys {l : List AugRecord}
    (h : (l.map AugRecord.filepath).Nodup) : dropDupKeepLast l = l := by
  induction l with
  | nil => rfl
  | cons a t ih =>
    simp only [List.map_cons, List.nodup_cons] at h
    rw [dropDupKeepLast]
    have hc : t.any (fun r2 => r2.filepath == a.filepath) = false := by
      by_contra hcc
      rcases List.any_eq_true.mp (Bool.of_not_eq_false hcc) with ⟨r2, hr2, hkey⟩
      exact h.1 (List.mem_map.mpr ⟨r2, hr2, beq_iff_eq.mp hkey⟩)
    rw [hc]
    simp [ih h.2]

/-- C3: the registry merge keeps at most one row per filepath, a row of the
merge whose filepath occurs among the new rows comes from the new rows
(last-write-wins), and merging a duplicate-free registry with itself
returns it unchanged. -/
theorem C3_registry_merge (e n R : List AugRecord) :
    ((update_csv_dataset e n).map AugRecord.filepath).Nodup
  ∧ (∀ r ∈ update_csv_dataset e n,
      n.any (fun r2 => r2.filepath == r.filepath) = true → r ∈ n)
  ∧ ((R.map AugRecord.filepath).Nodup → update_csv_dataset R R = R) := by
  refine ⟨nodup_keys_dropDupKeepLast (e ++ n), ?_, ?_⟩
  · intro r hr hk
    exact mem_right_of_key_in_right hr hk
  · intro hnd
    rw [update_csv_dataset,
      dropDup_append_absorb (fun r hr => List.any_eq_true.mpr ⟨r, hr, by simp⟩),
      dropDup_of_nodup_keys hnd]

/-- A sample registry row for the C3 witness. -/
def c3_rowA : AugRecord :=
  ⟨"f.webp", "s1/normal/f.webp", "o.webp", "rotate", "s1", "001", "normal",
   "./cards_augmented/s1/normal/f.webp"⟩

/-- A colliding registry row (same filepath, different payload). -/
def c3_rowA2 : AugRecord :=
  ⟨"f.webp", "s1/normal/f.webp", "o.webp", "blur", "s1", "001", "normal",
   "./cards_augmented/s1/normal/f.webp"⟩

/-- Witness for C3_registry_merge: a colliding row of the merge lies in the
new rows, and self-merge of a nodup registry is the identity. -/
theorem C3_registry_merge_witness :
    c3_rowA2 ∈ [c3_rowA2]
  ∧ update_csv_dataset [c3_rowA] [c3_rowA] = [c3_rowA] :=
  ⟨(C3_registry_merge [c3_rowA] [c3_rowA2] []).2.1 c3_rowA2 (by decide) (by decide),
   (C3_registry_merge [] [] [c3_rowA]).2.2 (by decide)⟩

/-! ### C6 — the reconciler deletes exactly the orphaned suffix-marked files -/

lemma cleanup_deletes_eq_true_iff (originals : List String) (f : String) :
    cleanup_deletes originals f = true ↔
      (cleanup_ext_ok f = true ∧ strContainsAug (pyStem f) = true ∧
       ∀ o ∈ originals, pyStem o ≠ recovered_base_stem f) := by
  unfold cleanup_deletes
  by_cases h1 : cleanup_ext_ok f <;> by_cases h2 : strContainsAug (pyStem f) <;>
    simp [h1, h2]

/-- C6: among the image files of the output walk (every engine-written
output carries one of the four image extensions), a file is deleted exactly
when its stem contains the marker and its recovered base stem matches no
source row's stem; a file whose stem lacks the marker is never deleted by
the pass. -/
theorem C6_cleanup_exact (listing : List SrcEntry) (augFiles : List String)
    (f : String) (hf : f ∈ augFiles) :
    (cleanup_ext_ok f = true →
      (f ∈ cleanup_orphaned_files listing augFiles ↔
        (strContainsAug (pyStem f) = true ∧
         ∀ r ∈ load_dataset listing, pyStem r.filepath ≠ recovered_base_stem f)))
  ∧ (strContainsAug (pyStem f) = false →
      f ∉ cleanup_orphaned_files listing augFiles) := by
  have hchar := cleanup_deletes_eq_true_iff
    ((load_dataset listing).map (fun r => r.filepath)) f
  constructor
  · intro hext
    rw [cleanup_orphaned_files, List.mem_filter]
    constructor
    · rintro ⟨-, hdel⟩
      obtain ⟨-, hmark, hforall⟩ := hchar.mp hdel
      refine ⟨hmark, ?_⟩
      intro r hr
      exact hforall _ (List.mem_map.mpr ⟨r, hr, rfl⟩)
    · rintro ⟨hmark, hforall⟩
      refine ⟨hf, hchar.mpr ⟨hext, hmark, ?_⟩⟩
      intro o ho
      rcases List.mem_map.mp ho with ⟨r, hr, rfl⟩
      exact hforall r hr
  · intro hmark hmem
    rw [cleanup_orphaned_files, List.mem_filter] at hmem
    obtain ⟨-, hmark2, -⟩ := hchar.mp hmem.2
    rw [hmark] at hmark2
    cases hmark2

/-- The live source listing for the C6 witness. -/
def c6_listing : List SrcEntry := [⟨some "s1", "s1_001_pf.webp"⟩]

/-- A derived output whose base stem matches no live source. -/
def c6_orphan : String := "./cards_augmented/s1/pf/s1_002_aug_1.webp"

/-- An original-type output copy (no marker in its stem). -/
def c6_original : String := "./cards_augmented/s1/pf/s1_001_pf.webp"

/-- Witness for C6_cleanup_exact: the orphaned derived file is deleted and
the original-type copy is not. -/
theorem C6_cleanup_exact_witness :
    c6_orphan ∈ cleanup_orphaned_files c6_listing [c6_orphan]
  ∧ c6_original ∉ cleanup_orphaned_files c6_listing [c6_original] :=
  ⟨((C6_cleanup_exact c6_listing [c6_orphan] c6_orphan (by decide)).1
      (by decide)).mpr (by decide),
   (C6_cleanup_exact c6_listing [c6_original] c6_original (by decide)).2 (by decide)⟩

/-! ### C9 — what the suffix stripper actually checks -/

/-- C9 counterexample: the claim says nothing is stripped when the final
segment is not numeric.  The segment x is not numeric, yet the parser
strips the trailing aug and x segments: the result is the stripped identity
and differs from parsing the full stem. -/
theorem C9_counterexample :
    "x".data.all Char.isDigit = false
  ∧ parse_card_info "s1_001_aug_x.webp" = some ⟨"s1", "001", "normal", "s1_001"⟩
  ∧ parse_card_info "s1_001_aug_x.webp" ≠ mk_card_info ["s1", "001", "aug", "x"] := by
  decide

/-- C9 amended: stripping fires exactly when the stem has at least four
underscore segments and the second-to-last is the literal aug; the last
segment is never tested for numericness — any final segment after the
marker is stripped — and when the guard fails the full stem is parsed. -/
theorem C9_strip_without_numeric_check (l : List String) (x : String) (fn : String) :
    (2 ≤ l.length →
      aug_strip_cond (l ++ ["aug", x]) = true
      ∧ (l ++ ["aug", x]).dropLast.dropLast = l)
  ∧ (aug_strip_cond (splitChar '_' (pyStem fn)) = false →
      parse_card_info fn = mk_card_info (splitChar '_' (pyStem fn)))
  ∧ (aug_strip_cond (splitChar '_' (pyStem fn)) = true →
      parse_card_info fn = mk_card_info ((splitChar '_' (pyStem fn)).dropLast.dropLast)) := by
  refine ⟨?_, ?_, ?_⟩
  · intro hl
    have hlen : (l ++ ["aug", x]).length = l.length + 2 := by simp
    constructor
    · have hget : (l ++ ["aug", x]).getD l.length "" = "aug" := by
        rw [List.getD_append_right l _ "" l.length (le_refl _)]
        simp
      have h4 : 4 ≤ l.length + 2 := by omega
      unfold aug_strip_cond
      rw [hlen]
      simp only [Nat.add_sub_cancel]
      rw [hget]
      simp [h4]
    · have hsplit : l ++ ["aug", x] = (l ++ ["aug"]) ++ [x] := by simp
      rw [hsplit, List.dropLast_concat, List.dropLast_concat]
  · intro h
    simp only [parse_card_info]
    rw [h]
    simp
  · intro h
    simp only [parse_card_info]
    rw [h]
    simp

/-- Witness for C9_strip_without_numeric_check with a non-numeric final
segment. -/
theorem C9_strip_without_numeric_check_witness :
    aug_strip_cond (["s1", "001"] ++ ["aug", "zz"]) = true
  ∧ (["s1", "001"] ++ ["aug", "zz"]).dropLast.dropLast = ["s1", "001"] :=
  (C9_strip_without_numeric_check ["s1", "001"] "zz" "irrelevant.webp").1 (by decide)

/-! ### C10 — an empty source dataset aborts the run -/

/-- C10: when no listed file is a parseable image, the loaded dataset is
empty, create_augmented_dataset raises before save_state runs, and main
exits with code 1 having written neither the state store nor the
registry. -/
theorem C10_empty_dataset_aborts (md5 : String → String)
    (decode : String → Option String) (cfg : Config) (mode : Mode)
    (cardsDir augmentedDir : String) (listing : List SrcEntry)
    (srcFs : List (String × String)) (st0 : AugState) (outs0 : List String)
    (h : ∀ e ∈ listing, load_ext_ok e.filename = false ∨ parse_filename e.filename = none) :
    main_run md5 decode cfg mode cardsDir augmentedDir listing srcFs st0 outs0
      = (1, false, false) := by
  have hload : load_dataset listing = [] := by
    rw [load_dataset, List.filterMap_eq_nil_iff]
    intro e he
    rcases h e he with h1 | h1
    · simp [h1]
    · simp [h1]
  have hc : create_augmented_dataset md5 decode cfg mode cardsDir augmentedDir
      listing srcFs st0 outs0 = Except.error "no images found in cards dir" := by
    simp [create_augmented_dataset, hload]
  simp [main_run, hc]

/-- Witness for C10_empty_dataset_aborts: a listing holding one extensionless
name and one non-image file. -/
theorem C10_empty_dataset_aborts_witness :
    main_run sampleMd5 sampleDecode ⟨4, ["rotate"]⟩ Mode.incremental "./cards"
      "./cards_augmented" [⟨none, "card"⟩, ⟨some "d", "x.txt"⟩] [] ⟨[]⟩ []
      = (1, false, false) :=
  C10_empty_dataset_aborts sampleMd5 sampleDecode ⟨4, ["rotate"]⟩ Mode.incremental
    "./cards" "./cards_augmented" [⟨none, "card"⟩, ⟨some "d", "x.txt"⟩] [] ⟨[]⟩ []
    (by decide)

end BerserkAug
